import Mathlib

/-!
Verification of the MIDI clock synchronizer and whole-note beacon generator
(`SyncController.cpp` / `MidiEngine.cpp`).  The engine state and the handlers
are shallowly embedded: machine doubles become rationals (all positions in the
program are of the form `tick / 24` or `sixteenths / 4`, so rational
arithmetic is exact and every comparison made by the code is reproduced
faithfully), C++ `int` becomes `ℤ`, wall-clock instants become rationals, and
every outbound MIDI message or Qt signal becomes an element of an `Event`
list returned by the handler.
-/

/-- Outbound messages and notifications produced by the engine. -/
inductive Event where
  | noteOn (ch note vel : ℤ)
  | noteOff (ch note vel : ℤ)
  | sysStart
  | sysStop
  | sysClock
  | bpmChanged (bpm : ℚ)
  | runningChanged (b : Bool)
  | clockTick
  | beatSent (quarterNote : ℤ)
  | positionChanged (beats : ℤ) (quarterNotes : ℚ)
deriving DecidableEq, Repr

/-- State of `SyncController`: the `m_` fields plus the static clock-window
pair (`s_lastClockTime`, `s_clockWindow`) and the sync timer bookkeeping. -/
structure SyncState where
  isRunning : Bool
  currentBPM : ℚ
  clockCount : ℤ
  incomingClockCount : ℤ
  bpmUpdateBlocked : Bool
  transportSyncBlocked : Bool
  currentPositionBeats : ℤ
  currentPositionQuarterNotes : ℚ
  lastEmittedWholeNote : ℤ
  midiChannel : ℤ
  midiNote : ℤ
  midiVelocity : ℤ
  noteOn : Bool
  lastClockMessageTime : ℚ
  predictedNextBoundaryQuarterNotes : ℚ
  boundaryPending : Bool
  clocksSinceLastBoundary : ℤ
  syncTimerExists : Bool
  syncTimerActive : Bool
  syncTimerIntervalMs : ℤ
  sLastClockTime : ℚ
  sClockWindow : ℤ
deriving DecidableEq, Repr

/-- C++ `static_cast<int>` on a floating value truncates toward zero. -/
def cppTruncInt (q : ℚ) : ℤ := if 0 ≤ q then ⌊q⌋ else ⌈q⌉

/-- State set up by the `SyncController` constructor (construction instant
modelled as time 0). -/
def initState : SyncState :=
  { isRunning := false
    currentBPM := 120
    clockCount := 0
    incomingClockCount := 0
    bpmUpdateBlocked := false
    transportSyncBlocked := false
    currentPositionBeats := 0
    currentPositionQuarterNotes := 0
    lastEmittedWholeNote := -1
    midiChannel := 0
    midiNote := 60
    midiVelocity := 100
    noteOn := false
    lastClockMessageTime := 0
    predictedNextBoundaryQuarterNotes := -1
    boundaryPending := false
    clocksSinceLastBoundary := 0
    syncTimerExists := false
    syncTimerActive := false
    syncTimerIntervalMs := 0
    sLastClockTime := 0
    sClockWindow := 0 }

/-- `SyncController::updateSyncTimer`: recompute the internal tick period
`(60 / BPM / 24) * 1000` ms; no-op when the timer object does not exist. -/
def updateSyncTimer (s : SyncState) : SyncState :=
  if s.syncTimerExists then
    { s with syncTimerIntervalMs := cppTruncInt (60 / s.currentBPM / 24 * 1000) }
  else s

/-- `SyncController::setBPM`: the whole body is guarded by
`bpm >= 20 && bpm <= 300`; inside, store the BPM, refresh the timer period if
a timer exists and emit `bpmChanged`. -/
def setBPM (bpm : ℚ) (s : SyncState) : SyncState × List Event :=
  if 20 ≤ bpm ∧ bpm ≤ 300 then
    (updateSyncTimer { s with currentBPM := bpm }, [Event.bpmChanged bpm])
  else (s, [])

/-- `SyncController::start`: create the timer if needed, set running, refresh
and start the timer, optionally send outbound START, signal `runningChanged`. -/
def start (sendStartCommand : Bool) (s : SyncState) : SyncState × List Event :=
  let s1 := { s with syncTimerExists := true, isRunning := true }
  let s2 := { updateSyncTimer s1 with syncTimerActive := true }
  (s2, (if sendStartCommand then [Event.sysStart] else []) ++ [Event.runningChanged true])

/-- `SyncController::stop`: stop the timer, zero the per-run counters, release
a still-sounding note, optionally send outbound STOP, signal
`runningChanged` and `positionChanged`. -/
def stop (sendStopCommand : Bool) (s : SyncState) : SyncState × List Event :=
  let noteWasOn := s.noteOn
  let s1 := { s with syncTimerActive := false
                     clockCount := 0
                     isRunning := false
                     currentPositionBeats := 0
                     currentPositionQuarterNotes := 0
                     lastEmittedWholeNote := -1
                     predictedNextBoundaryQuarterNotes := -1
                     boundaryPending := false
                     clocksSinceLastBoundary := 0 }
  let s2 := if noteWasOn then { s1 with noteOn := false } else s1
  (s2,
    (if noteWasOn then [Event.noteOff s.midiChannel s.midiNote 0] else []) ++
      (if sendStopCommand then [Event.sysStop] else []) ++
      [Event.runningChanged false, Event.positionChanged 0 0])

/-- `SyncController::handleDAWStart` at instant `now`: when not running (and
not re-entrant), reset every per-run counter, reset the static clock window
and become running in slave mode; no internal timer, no START echo. -/
def handleDAWStart (now : ℚ) (s : SyncState) : SyncState × List Event :=
  if ¬s.transportSyncBlocked ∧ ¬s.isRunning then
    ({ s with clockCount := 0
              currentPositionBeats := 0
              currentPositionQuarterNotes := 0
              lastEmittedWholeNote := -1
              predictedNextBoundaryQuarterNotes := 0
              boundaryPending := false
              clocksSinceLastBoundary := 0
              sLastClockTime := now
              sClockWindow := 0
              lastClockMessageTime := now
              isRunning := true },
      [Event.runningChanged true])
  else (s, [])

/-- `SyncController::handleDAWStop`: delegate to `stop(false)` when running. -/
def handleDAWStop (s : SyncState) : SyncState × List Event :=
  if ¬s.transportSyncBlocked ∧ s.isRunning then stop false s else (s, [])

/-- `isFirstDownbeat` of `checkAndEmitWholeNote`: current boundary is 0, no
boundary emitted yet, and less than one quarter note elapsed. -/
def firstDownbeatCond (s : SyncState) (qn : ℚ) : Prop :=
  ⌊qn / 4⌋ = 0 ∧ s.lastEmittedWholeNote < 0 ∧ qn < 1

instance (s : SyncState) (qn : ℚ) : Decidable (firstDownbeatCond s qn) := by
  unfold firstDownbeatCond
  infer_instance

/-- BPM-adjusted advance window of `checkAndEmitWholeNote`: substitute 120
for an out-of-range BPM, convert `EMISSION_ADVANCE_MS = 70` into ticks with
`msPerTick = (60000 / bpm) / 24`, floor the result at 1.5 ticks. -/
def advanceTicks (bpm0 : ℚ) : ℚ :=
  let bpm := if bpm0 < 20 ∨ bpm0 > 300 then 120 else bpm0
  let msPerTick := 60000 / bpm / 24
  let a := 70 / msPerTick
  if a < 3 / 2 then 3 / 2 else a

/-- `shouldEmit` of `checkAndEmitWholeNote`: the first-downbeat special case,
or the next boundary is unemitted and within the advance window. -/
def emitCond (s : SyncState) (qn : ℚ) : Prop :=
  firstDownbeatCond s qn ∨
    (⌊qn / 4⌋ + 1 > s.lastEmittedWholeNote ∧
      (4 - (qn - ⌊qn / 4⌋ * 4)) * 24 ≤ advanceTicks s.currentBPM)

instance (s : SyncState) (qn : ℚ) : Decidable (emitCond s qn) := by
  unfold emitCond
  infer_instance

/-- `noteShouldBeOff` of `checkAndEmitWholeNote`: a note is sounding and the
position is strictly inside the first 0.4 quarter notes of the current
boundary (the note-on decision earlier in the same call does not touch
`m_noteOn`, so the flag read here is the pre-tick one). -/
def offCond (s : SyncState) (qn : ℚ) : Prop :=
  s.noteOn = true ∧ 0 < qn - ⌊qn / 4⌋ * 4 ∧ qn - ⌊qn / 4⌋ * 4 < 2 / 5

instance (s : SyncState) (qn : ℚ) : Decidable (offCond s qn) := by
  unfold offCond
  infer_instance

/-- Boundary marked by an emission: the current one for the first downbeat,
otherwise the next one. -/
def emittedBoundary (s : SyncState) (qn : ℚ) : ℤ :=
  if firstDownbeatCond s qn then ⌊qn / 4⌋ else ⌊qn / 4⌋ + 1

/-- `SyncController::checkAndEmitWholeNote` on position `qn` (quarter notes).
Updates the boundary bookkeeping and emits, in source order: the conditional
note-off (sent before the note-on block), then the conditional note-on with
its `beatSent` and `positionChanged` notifications. -/
def checkAndEmitWholeNote (qn : ℚ) (s : SyncState) : SyncState × List Event :=
  let b := emittedBoundary s qn
  let s1 := if emitCond s qn then
      { s with lastEmittedWholeNote := b
               predictedNextBoundaryQuarterNotes := (b + 1) * 4
               clocksSinceLastBoundary := 0 }
    else s
  let s2 := if offCond s qn then { s1 with noteOn := false } else s1
  let s3 := if emitCond s qn then { s2 with noteOn := true } else s2
  (s3,
    (if offCond s qn then [Event.noteOff s.midiChannel s.midiNote 0] else []) ++
      (if emitCond s qn then
        [Event.noteOn s.midiChannel s.midiNote s.midiVelocity,
         Event.beatSent (b * 4),
         Event.positionChanged s.currentPositionBeats s.currentPositionQuarterNotes]
       else []))

/-- Critical path of `SyncController::handleMIDIClock` at instant `now`:
bump the incoming counter and, when running, advance the tick and recompute
the position from it. -/
def clockAdvance (now : ℚ) (s0 : SyncState) : SyncState :=
  let sA := { s0 with incomingClockCount := s0.incomingClockCount + 1
                      lastClockMessageTime := now }
  if sA.isRunning then
    { sA with clockCount := sA.clockCount + 1
              clocksSinceLastBoundary := sA.clocksSinceLastBoundary + 1
              currentPositionQuarterNotes := ((sA.clockCount + 1 : ℤ) : ℚ) / 24
              currentPositionBeats := cppTruncInt (((sA.clockCount + 1 : ℤ) : ℚ) / 24 * 4) }
  else sA

/-- Static 24-pulse BPM window of `handleMIDIClock` (the non-critical path):
capture the window start when the counter is exhausted, decrement, and when
it hits zero propose `60 / elapsed`, accepting exactly under the guard of the
source; the window restarts from `now` whether or not the proposal is
accepted. -/
def bpmWindowStep (now : ℚ) (s : SyncState) : SyncState :=
  let sD := if s.sClockWindow = 0 then
      { s with sLastClockTime := now, sClockWindow := 24 }
    else s
  let sE := { sD with sClockWindow := sD.sClockWindow - 1 }
  if sE.sClockWindow = 0 then
    (let elapsedSeconds := now - sE.sLastClockTime
     if 1 / 5 < elapsedSeconds ∧ elapsedSeconds < 3 then
       (let calculatedBPM := 60 / elapsedSeconds
        let sE' := if 20 ≤ calculatedBPM ∧ calculatedBPM ≤ 300 ∧
            1 / 2 < |calculatedBPM - sE.currentBPM| ∧ sE.bpmUpdateBlocked = false then
            updateSyncTimer { sE with currentBPM := calculatedBPM }
          else sE
        { sE' with sLastClockTime := now, sClockWindow := 24 })
     else { sE with sLastClockTime := now, sClockWindow := 24 })
  else sE

/-- `SyncController::handleMIDIClock` at instant `now`: the critical path
(`clockAdvance`), then when running the boundary scheduler on the position
recomputed from the tick, then the BPM window (`bpmWindowStep`), and finally
the `clockTick` signal. -/
def handleMIDIClock (now : ℚ) (s0 : SyncState) : SyncState × List Event :=
  let sB := clockAdvance now s0
  let p := if sB.isRunning then
      checkAndEmitWholeNote (((sB.clockCount : ℤ) : ℚ) / 24) sB
    else (sB, [])
  (bpmWindowStep now p.1, p.2 ++ [Event.clockTick])

/-- State-update stage of `SyncController::handleSongPositionPointer` (the
part inside the mutex, before the boundary check): record the position, set
`m_clockCount = positionBeats * 4`, rebase `m_lastEmittedWholeNote` when not
running or seeking backwards, and recompute `m_clocksSinceLastBoundary`. -/
def sppUpdateState (positionBeats : ℤ) (positionQuarterNotes : ℚ)
    (s0 : SyncState) : SyncState :=
  let s1 := { s0 with currentPositionBeats := positionBeats
                      currentPositionQuarterNotes := positionQuarterNotes
                      clockCount := positionBeats * 4 }
  let s2 := if ¬s1.isRunning ∨ positionQuarterNotes < s0.currentPositionQuarterNotes - 1 / 2 then
      (let currentWholeNote := cppTruncInt (positionQuarterNotes / 4)
       let le := if positionQuarterNotes - currentWholeNote * 4 < 2 then
           currentWholeNote - 1
         else currentWholeNote
       { s1 with lastEmittedWholeNote := le
                 predictedNextBoundaryQuarterNotes := (le + 1) * 4 })
    else s1
  let currentWholeNote2 := cppTruncInt (positionQuarterNotes / 4)
  { s2 with clocksSinceLastBoundary :=
      cppTruncInt ((positionQuarterNotes - currentWholeNote2 * 4) * 24) }

/-- `SyncController::handleSongPositionPointer`: for a non-negative position,
run the state-update stage, then (outside the mutex) run the boundary check
when running, and always signal `positionChanged`. -/
def handleSongPositionPointer (positionBeats : ℤ) (positionQuarterNotes : ℚ)
    (s0 : SyncState) : SyncState × List Event :=
  if 0 ≤ positionBeats then
    let s3 := sppUpdateState positionBeats positionQuarterNotes s0
    let p := if s3.isRunning ∧ 0 ≤ positionQuarterNotes then
        checkAndEmitWholeNote positionQuarterNotes s3
      else (s3, [])
    (p.1, p.2 ++ [Event.positionChanged positionBeats positionQuarterNotes])
  else (s0, [Event.positionChanged positionBeats positionQuarterNotes])

/-- Fold a list of clock-pulse instants through `handleMIDIClock`. -/
def clockFold (ts : List ℚ) (s : SyncState) : SyncState :=
  ts.foldl (fun s t => (handleMIDIClock t s).1) s

/-- Number of note-on messages in an event list. -/
def countNoteOn (l : List Event) : ℕ :=
  l.countP fun e => match e with | Event.noteOn _ _ _ => true | _ => false

/-- Number of note-off messages in an event list. -/
def countNoteOff (l : List Event) : ℕ :=
  l.countP fun e => match e with | Event.noteOff _ _ _ => true | _ => false

/-- Number of `bpmChanged` notifications in an event list. -/
def countBpmChanged (l : List Event) : ℕ :=
  l.countP fun e => match e with | Event.bpmChanged _ => true | _ => false

/-! ### Canonical slave run: inbound Start at time 0, then clock pulses all
delivered at time 0 (so the BPM estimator never accepts: elapsed stays 0 and
the BPM stays at its default 120), then inbound Stop. -/

/-- Engine state after inbound Start followed by `n` inbound clock pulses. -/
def slaveState : ℕ → SyncState
  | 0 => (handleDAWStart 0 initState).1
  | n + 1 => (handleMIDIClock 0 (slaveState n)).1

/-- Events of step `k` of the canonical slave run: step 0 is the inbound
Start, step `k + 1` is the `(k + 1)`-th clock pulse. -/
def slaveEvents : ℕ → List Event
  | 0 => (handleDAWStart 0 initState).2
  | n + 1 => (handleMIDIClock 0 (slaveState n)).2

/-- Note-on messages sent during steps `0 .. n` of the canonical slave run. -/
def onsUpTo : ℕ → ℕ
  | 0 => countNoteOn (slaveEvents 0)
  | n + 1 => onsUpTo n + countNoteOn (slaveEvents (n + 1))

/-- Note-off messages sent during steps `0 .. n` of the canonical slave run. -/
def offsUpTo : ℕ → ℕ
  | 0 => countNoteOff (slaveEvents 0)
  | n + 1 => offsUpTo n + countNoteOff (slaveEvents (n + 1))

/-- Total note-ons of the full sequence Start, `n` clocks, Stop. -/
def slaveTotalOns (n : ℕ) : ℕ :=
  onsUpTo n + countNoteOn (handleDAWStop (slaveState n)).2

/-- Total note-offs of the full sequence Start, `n` clocks, Stop. -/
def slaveTotalOffs (n : ℕ) : ℕ :=
  offsUpTo n + countNoteOff (handleDAWStop (slaveState n)).2

/-- Closed form of `m_lastEmittedWholeNote` after `n` clocks of the canonical
slave run: `-1` before the first clock, then `(n + 3) / 96` (boundary `b` is
marked from tick `96 b - 3` on, three ticks early at 120 BPM). -/
def lastEmSpec (n : ℕ) : ℤ := if n = 0 then -1 else ((n + 3) / 96 : ℕ)

/-- Closed form of `m_noteOn` after `n` clocks: the first-downbeat note sounds
only during tick 1, later notes from tick `96 b - 3` through tick `96 b`. -/
def noteOnSpec (n : ℕ) : Bool :=
  decide (n = 1 ∨ (93 ≤ n ∧ (n % 96 = 93 ∨ n % 96 = 94 ∨ n % 96 = 95 ∨ n % 96 = 0)))

/-- Ticks of the canonical slave run on which a note-on is sent. -/
def emitAtSpec (n : ℕ) : Bool := decide (n = 1 ∨ n % 96 = 93)

/-- Ticks of the canonical slave run on which a note-off is sent. -/
def offAtSpec (n : ℕ) : Bool := decide (n = 2 ∨ (97 ≤ n ∧ n % 96 = 1))

/-- Boundary for which tick `n` emits (when `emitAtSpec n`). -/
def boundSpec (n : ℕ) : ℤ := ((n + 3) / 96 : ℕ)

/-- Fields of the canonical slave run state that drive the scheduler. -/
def SlaveInv (n : ℕ) (s : SyncState) : Prop :=
  s.isRunning = true ∧ s.currentBPM = 120 ∧ s.sLastClockTime = 0 ∧
    s.bpmUpdateBlocked = false ∧ s.transportSyncBlocked = false ∧
    s.midiChannel = 0 ∧ s.midiNote = 60 ∧ s.midiVelocity = 100 ∧
    s.clockCount = (n : ℤ) ∧ s.lastEmittedWholeNote = lastEmSpec n ∧
    s.noteOn = noteOnSpec n

/-- Concrete running state used by the C1 witness. -/
def wStateC1 : SyncState := { initState with isRunning := true, lastEmittedWholeNote := 0 }

/-- Concrete running state used by the C5 witness. -/
def wStateC5 : SyncState :=
  { initState with isRunning := true, currentPositionQuarterNotes := 10 }

/-- Concrete state with a full BPM window, used by the C7 witness. -/
def wStateC7 : SyncState := { initState with sClockWindow := 24 }

/-! ### Arithmetic helpers -/

/-- Floor of an integer-tick position divided by 96 is the whole-note index. -/
lemma floor_t_div96 (t : ℕ) : ⌊(t : ℚ) / 96⌋ = ((t / 96 : ℕ) : ℤ) := by
  rw [Int.floor_eq_iff]
  have h96 : (0:ℚ) < 96 := by norm_num
  constructor
  · rw [le_div_iff₀ h96]
    have : (t / 96) * 96 ≤ t := by omega
    exact_mod_cast this
  · rw [div_lt_iff₀ h96]
    have : t < (t / 96 + 1) * 96 := by omega
    push_cast
    exact_mod_cast this

/-- The boundary index computed by the scheduler from `qn = t / 24`. -/
lemma floor_qn_div4 (t : ℕ) : ⌊((t : ℚ) / 24) / 4⌋ = ((t / 96 : ℕ) : ℤ) := by
  rw [div_div]
  norm_num
  exact floor_t_div96 t

/-- Position inside the current whole-note boundary, in quarter notes. -/
lemma posInBoundary_eq (t : ℕ) :
    (t : ℚ) / 24 - (((t / 96 : ℕ) : ℤ) : ℚ) * 4 = ((t % 96 : ℕ) : ℚ) / 24 := by
  have h : (t : ℚ) = 96 * (((t / 96 : ℕ)) : ℚ) + ((t % 96 : ℕ) : ℚ) := by
    exact_mod_cast (Nat.div_add_mod t 96).symm
  have hc : (((t / 96 : ℕ) : ℤ) : ℚ) = ((t / 96 : ℕ) : ℚ) := by norm_cast
  rw [hc, h]
  ring

/-- The advance window for an in-range BPM equals `7 / 250` of the BPM,
floored at 1.5 ticks. -/
lemma advanceTicks_eq (b : ℚ) (h1 : 20 ≤ b) (h2 : b ≤ 300) :
    advanceTicks b = max (3 / 2) (7 / 250 * b) := by
  have hb : (0:ℚ) < b := by linarith
  have hfix : ¬(b < 20 ∨ b > 300) := by push_neg; exact ⟨h1, h2⟩
  have hval : (70 : ℚ) / (60000 / b / 24) = 7 / 250 * b := by
    field_simp
    ring
  rw [advanceTicks]
  simp only [hfix, if_false, hval]
  rcases le_or_lt (3/2 : ℚ) (7 / 250 * b) with h | h
  · rw [if_neg (by linarith), max_eq_right h]
  · rw [if_pos h, max_eq_left (le_of_lt h)]

/-- At 120 BPM the advance window is 3.36 ticks. -/
lemma advanceTicks_120 : advanceTicks 120 = 84 / 25 := by
  rw [advanceTicks_eq 120 (by norm_num) (by norm_num)]
  rw [max_eq_right] <;> norm_num

/-! ### C4, C9, C10 : `setBPM` -/

/-- Helper: an in-range `setBPM` stores the value and notifies once. -/
lemma setBPM_in_range (x : ℚ) (s : SyncState) (h1 : 20 ≤ x) (h2 : x ≤ 300) :
    (setBPM x s).1.currentBPM = x ∧ (setBPM x s).2 = [Event.bpmChanged x] := by
  rw [setBPM, if_pos ⟨h1, h2⟩]
  unfold updateSyncTimer
  split <;> simp

/-- Helper: an out-of-range `setBPM` is skipped entirely. -/
lemma setBPM_out_of_range (x : ℚ) (s : SyncState) (h : x < 20 ∨ 300 < x) :
    setBPM x s = (s, []) := by
  rw [setBPM, if_neg]
  rintro ⟨h1, h2⟩
  rcases h with h | h <;> linarith

/-- C10: For every x with x < 20 or x > 300, calling set_bpm(x) leaves every
field of the engine state unchanged (in particular `current_bpm` and the
internal tick period) and emits no notification at all. -/
theorem setBPM_out_of_range_noop (x : ℚ) (s : SyncState) (h : x < 20 ∨ 300 < x) :
    setBPM x s = (s, []) :=
  setBPM_out_of_range x s h

/-- Witness for `setBPM_out_of_range_noop` at x = 10. -/
theorem setBPM_out_of_range_noop_witness :
    setBPM 10 initState = (initState, []) :=
  setBPM_out_of_range_noop 10 initState (Or.inl (by norm_num))

/-- C4 counterexample: the claim says `set_bpm(10)` clamps to 20, i.e.
`current_bpm = 20` afterwards; the code rejects the value instead and
`current_bpm` stays at its prior value 120. -/
theorem setBPM_no_clamp_counterexample :
    ((setBPM 10 initState).1).currentBPM = 120 ∧ ((120 : ℚ) ≠ 20) := by
  constructor
  · rw [setBPM_out_of_range 10 initState (Or.inl (by norm_num))]
    rfl
  · norm_num

/-- C4 (amended): `set_bpm(x)` does not clamp: it updates `current_bpm` to x
and notifies exactly when x ∈ [20, 300] (also refreshing the internal tick
period when the timer exists); an out-of-range x is ignored entirely. -/
theorem setBPM_range_behavior (x : ℚ) (s : SyncState) :
    (20 ≤ x ∧ x ≤ 300 →
      (setBPM x s).1.currentBPM = x ∧ (setBPM x s).2 = [Event.bpmChanged x] ∧
        (s.syncTimerExists = true →
          (setBPM x s).1.syncTimerIntervalMs = cppTruncInt (60 / x / 24 * 1000))) ∧
    (x < 20 ∨ 300 < x → setBPM x s = (s, [])) := by
  refine ⟨fun h => ⟨(setBPM_in_range x s h.1 h.2).1, (setBPM_in_range x s h.1 h.2).2, ?_⟩,
    setBPM_out_of_range x s⟩
  intro ht
  rw [setBPM, if_pos h]
  unfold updateSyncTimer
  simp [ht]

/-- Witness for `setBPM_range_behavior` at x = 130 on the initial state. -/
theorem setBPM_range_behavior_witness :
    ((setBPM 130 initState).1).currentBPM = 130 :=
  ((setBPM_range_behavior 130 initState).1 (by norm_num)).1

/-- C9 counterexample: two consecutive `set_bpm(130)` calls produce two
`bpm_changed` notifications, not one: the code notifies unconditionally on
every accepted call. -/
theorem double_setBPM_counterexample :
    ¬(countBpmChanged ((setBPM 130 initState).2 ++
        (setBPM 130 (setBPM 130 initState).1).2) = 1) := by
  have h1 := setBPM_in_range 130 initState (by norm_num) (by norm_num)
  have h2 := setBPM_in_range 130 (setBPM 130 initState).1 (by norm_num) (by norm_num)
  rw [h1.2, h2.2]
  simp [countBpmChanged]

/-- C9 (amended): two consecutive `set_bpm(x)` calls with the same in-range x
produce exactly two `bpm_changed` notifications, one per call; the state
update itself is idempotent (`current_bpm = x` after both). -/
theorem double_setBPM_notifications (x : ℚ) (s : SyncState)
    (h1 : 20 ≤ x) (h2 : x ≤ 300) :
    countBpmChanged ((setBPM x s).2 ++ (setBPM x (setBPM x s).1).2) = 2 ∧
      (setBPM x (setBPM x s).1).1.currentBPM = x := by
  have e1 := setBPM_in_range x s h1 h2
  have e2 := setBPM_in_range x (setBPM x s).1 h1 h2
  rw [e1.2, e2.2]
  exact ⟨by simp [countBpmChanged], e2.1⟩

/-- Witness for `double_setBPM_notifications` at x = 130. -/
theorem double_setBPM_notifications_witness :
    countBpmChanged ((setBPM 130 initState).2 ++
      (setBPM 130 (setBPM 130 initState).1).2) = 2 :=
  (double_setBPM_notifications 130 initState (by norm_num) (by norm_num)).1

/-! ### C3, C8, C5 : Song Position Pointer and start -/

/-- Helper: the SPP state update writes `positionBeats * 4` into the tick
counter (this is the line `m_clockCount = positionBeats * 4`). -/
lemma sppUpdateState_clockCount (p : ℤ) (qn : ℚ) (s : SyncState) :
    (sppUpdateState p qn s).clockCount = p * 4 := by
  simp only [sppUpdateState]
  split_ifs <;> rfl

/-- Helper: the SPP state update stores the announced quarter-note position. -/
lemma sppUpdateState_posQN (p : ℤ) (qn : ℚ) (s : SyncState) :
    (sppUpdateState p qn s).currentPositionQuarterNotes = qn := by
  simp only [sppUpdateState]
  split_ifs <;> rfl

/-- Helper: the SPP state update leaves the running flag alone. -/
lemma sppUpdateState_isRunning (p : ℤ) (qn : ℚ) (s : SyncState) :
    (sppUpdateState p qn s).isRunning = s.isRunning := by
  simp only [sppUpdateState]
  split_ifs <;> rfl

/-- Helper: while stopped, `handleSongPositionPointer` is exactly the state
update stage (the boundary check is skipped). -/
lemma handleSPP_stopped (p : ℤ) (qn : ℚ) (s : SyncState) (hp : 0 ≤ p)
    (hr : s.isRunning = false) :
    (handleSongPositionPointer p qn s).1 = sppUpdateState p qn s := by
  have hc : ¬((sppUpdateState p qn s).isRunning = true ∧ 0 ≤ qn) := by
    rw [sppUpdateState_isRunning, hr]
    simp
  simp only [handleSongPositionPointer, if_pos hp, if_neg hc]

/-- C3 (code bug): on SPP with position_sixteenths = 24 the code sets the
tick counter to 24 × 4 = 96, while announcing position 6.0 quarter notes; the
tick is NOT 24 × 6 = 144 as the claim requires, and recomputing the position
as tick / 24 gives 4 ≠ 6, contradicting the code's own position accounting
(every clock handler maintains `positionQuarterNotes = clockCount / 24`). -/
theorem spp_tick_conversion_bug :
    ((handleSongPositionPointer 24 6 initState).1).clockCount = 96 ∧
      ((handleSongPositionPointer 24 6 initState).1).currentPositionQuarterNotes = 6 ∧
      (96 : ℚ) / 24 ≠ 6 ∧ ((24 : ℤ) * 6 ≠ 96) := by
  rw [handleSPP_stopped 24 6 initState (by norm_num) rfl]
  refine ⟨?_, sppUpdateState_posQN 24 6 initState, by norm_num, by norm_num⟩
  rw [sppUpdateState_clockCount]
  norm_num

/-- Helper: `start` does not touch the tick counter, boundary state or BPM
window; it only creates/starts the timer, refreshes its period and raises the
running flag. -/
lemma start_fields (b : Bool) (s : SyncState) :
    ((start b s).1).clockCount = s.clockCount ∧
      ((start b s).1).lastEmittedWholeNote = s.lastEmittedWholeNote ∧
      ((start b s).1).noteOn = s.noteOn ∧
      ((start b s).1).clocksSinceLastBoundary = s.clocksSinceLastBoundary ∧
      ((start b s).1).sClockWindow = s.sClockWindow ∧
      ((start b s).1).sLastClockTime = s.sLastClockTime ∧
      ((start b s).1).isRunning = true := by
  simp only [start, updateSyncTimer]
  split_ifs <;> simp

/-- C8 counterexample: after an SPP (position 24 sixteenths) received while
Stopped, `control.start()` begins the run with tick 96, not 0 — `start`
performs no per-run reset (that happens in `stop`). -/
theorem start_no_reset_counterexample :
    ¬(((start true ((handleSongPositionPointer 24 6 initState).1)).1).clockCount = 0) := by
  rw [(start_fields true _).1, handleSPP_stopped 24 6 initState (by norm_num) rfl,
    sppUpdateState_clockCount]
  norm_num

/-- C8 (amended): a master-initiated `control.start()` leaves the tick
counter, the boundary state (`last_emitted_boundary`, `note_on`,
`ticks_since_last_boundary`) and the BPM window untouched — it only
creates/starts the timer, refreshes its period and raises the running flag.
The tick counter and boundary state are zeroed by `stop`, while the static
BPM window is reset only by the constructor and the DAW start/continue
handlers — never by `start`.  Consequently, after an SPP carrying position p
received while Stopped, `control.start()` begins the run with tick p × 4. -/
theorem start_preserves_per_run_state (b : Bool) (s : SyncState) :
    (((start b s).1).clockCount = s.clockCount ∧
      ((start b s).1).lastEmittedWholeNote = s.lastEmittedWholeNote ∧
      ((start b s).1).noteOn = s.noteOn ∧
      ((start b s).1).clocksSinceLastBoundary = s.clocksSinceLastBoundary ∧
      ((start b s).1).sClockWindow = s.sClockWindow ∧
      ((start b s).1).sLastClockTime = s.sLastClockTime ∧
      ((start b s).1).isRunning = true) ∧
    (∀ (p : ℤ) (qn : ℚ), 0 ≤ p → s.isRunning = false →
      ((start b ((handleSongPositionPointer p qn s).1)).1).clockCount = p * 4) := by
  refine ⟨start_fields b s, fun p qn hp hr => ?_⟩
  rw [(start_fields b _).1, handleSPP_stopped p qn s hp hr, sppUpdateState_clockCount]

/-- Witness for `start_preserves_per_run_state`: starting after an SPP at
position 24 while stopped begins the run at tick 96. -/
theorem start_preserves_per_run_state_witness :
    ((start true ((handleSongPositionPointer 24 6 initState).1)).1).clockCount = 24 * 4 :=
  (start_preserves_per_run_state true initState).2 24 6 (by norm_num) rfl

/-- C5: rebase of `last_emitted_boundary` by an SPP received while running:
on a backwards seek (new position < previous − 0.5) it becomes `wn − 1` when
the fraction into the whole note is < 2 quarter notes and `wn` otherwise
(`wn = ⌊qn / 4⌋`); on forward motion it is left unchanged (the subsequent
tick-driven boundary check decides).  Stated about the state-update stage of
`handleSongPositionPointer`. -/
theorem spp_rebase_lastEmitted (s : SyncState) (p : ℤ) (qn : ℚ)
    (hr : s.isRunning = true) (hp : 0 ≤ p) (hqn : qn = (p : ℚ) / 4) :
    (qn < s.currentPositionQuarterNotes - 1 / 2 →
      (sppUpdateState p qn s).lastEmittedWholeNote =
        (if qn - ⌊qn / 4⌋ * 4 < 2 then ⌊qn / 4⌋ - 1 else ⌊qn / 4⌋)) ∧
    (s.currentPositionQuarterNotes ≤ qn →
      (sppUpdateState p qn s).lastEmittedWholeNote = s.lastEmittedWholeNote) := by
  have hq0 : (0 : ℚ) ≤ qn := by
    rw [hqn]
    positivity
  have htr : cppTruncInt (qn / 4) = ⌊qn / 4⌋ := by
    rw [cppTruncInt, if_pos (by positivity)]
  constructor
  · intro hseek
    simp only [sppUpdateState, htr]
    split_ifs with h1 h2 h3
    · rfl
    · rfl
    · exact absurd (Or.inr hseek) h1
    · exact absurd (Or.inr hseek) h1
  · intro hfwd
    simp only [sppUpdateState, htr]
    split_ifs with h1 h2
    · rcases h1 with h | h
      · exact absurd hr h
      · linarith
    · rcases h1 with h | h
      · exact absurd hr h
      · linarith
    · rfl

/-- Witness for `spp_rebase_lastEmitted`: running at position 10, an SPP to
position 4 (16 sixteenths) is a backwards seek landing at fraction 0 < 2, so
the boundary is rebased to ⌊4/4⌋ − 1 = 0. -/
theorem spp_rebase_lastEmitted_witness :
    (sppUpdateState 16 4 wStateC5).lastEmittedWholeNote = 0 := by
  have h := (spp_rebase_lastEmitted wStateC5 16 4 rfl (by norm_num) (by norm_num)).1
    (by norm_num [wStateC5, initState])
  rw [h]
  norm_num

/-! ### Characterization of `checkAndEmitWholeNote` -/

/-- Helper: a note-on message appears in the scheduler output exactly when
the emit decision fires. -/
lemma mem_noteOn_iff (s : SyncState) (qn : ℚ) :
    Event.noteOn s.midiChannel s.midiNote s.midiVelocity ∈
      (checkAndEmitWholeNote qn s).2 ↔ emitCond s qn := by
  by_cases hE : emitCond s qn <;> by_cases hO : offCond s qn <;>
    simp [checkAndEmitWholeNote, hE, hO]

/-- Helper: a `beatSent q` notification appears exactly when the emit
decision fires with `q` four times the emitted boundary. -/
lemma mem_beatSent_iff (s : SyncState) (qn : ℚ) (q : ℤ) :
    Event.beatSent q ∈ (checkAndEmitWholeNote qn s).2 ↔
      (emitCond s qn ∧ q = emittedBoundary s qn * 4) := by
  by_cases hE : emitCond s qn <;> by_cases hO : offCond s qn <;>
    simp [checkAndEmitWholeNote, hE, hO, eq_comm]

/-- Helper: a note-off message appears in the scheduler output exactly when
the note-off decision fires. -/
lemma mem_noteOff_iff (s : SyncState) (qn : ℚ) :
    Event.noteOff s.midiChannel s.midiNote 0 ∈ (checkAndEmitWholeNote qn s).2 ↔
      offCond s qn := by
  by_cases hE : emitCond s qn <;> by_cases hO : offCond s qn <;>
    simp [checkAndEmitWholeNote, hE, hO]

/-- Helper: note-on count of one scheduler call. -/
lemma countNoteOn_checkAndEmit (s : SyncState) (qn : ℚ) :
    countNoteOn (checkAndEmitWholeNote qn s).2 = if emitCond s qn then 1 else 0 := by
  by_cases hE : emitCond s qn <;> by_cases hO : offCond s qn <;>
    simp [checkAndEmitWholeNote, hE, hO, countNoteOn]

/-- Helper: note-off count of one scheduler call. -/
lemma countNoteOff_checkAndEmit (s : SyncState) (qn : ℚ) :
    countNoteOff (checkAndEmitWholeNote qn s).2 = if offCond s qn then 1 else 0 := by
  by_cases hE : emitCond s qn <;> by_cases hO : offCond s qn <;>
    simp [checkAndEmitWholeNote, hE, hO, countNoteOff]

/-- Helper: state after an emitting scheduler call. -/
lemma checkAndEmit_state_emit (s : SyncState) (qn : ℚ) (h : emitCond s qn) :
    ((checkAndEmitWholeNote qn s).1).lastEmittedWholeNote = emittedBoundary s qn ∧
      ((checkAndEmitWholeNote qn s).1).clocksSinceLastBoundary = 0 ∧
      ((checkAndEmitWholeNote qn s).1).noteOn = true ∧
      ((checkAndEmitWholeNote qn s).1).isRunning = s.isRunning ∧
      ((checkAndEmitWholeNote qn s).1).currentBPM = s.currentBPM ∧
      ((checkAndEmitWholeNote qn s).1).clockCount = s.clockCount ∧
      ((checkAndEmitWholeNote qn s).1).sLastClockTime = s.sLastClockTime ∧
      ((checkAndEmitWholeNote qn s).1).sClockWindow = s.sClockWindow ∧
      ((checkAndEmitWholeNote qn s).1).bpmUpdateBlocked = s.bpmUpdateBlocked ∧
      ((checkAndEmitWholeNote qn s).1).transportSyncBlocked = s.transportSyncBlocked ∧
      ((checkAndEmitWholeNote qn s).1).midiChannel = s.midiChannel ∧
      ((checkAndEmitWholeNote qn s).1).midiNote = s.midiNote ∧
      ((checkAndEmitWholeNote qn s).1).midiVelocity = s.midiVelocity := by
  by_cases hO : offCond s qn <;> simp [checkAndEmitWholeNote, h, hO]

/-- Helper: state after a non-emitting scheduler call. -/
lemma checkAndEmit_state_noemit (s : SyncState) (qn : ℚ) (h : ¬emitCond s qn) :
    ((checkAndEmitWholeNote qn s).1).lastEmittedWholeNote = s.lastEmittedWholeNote ∧
      ((checkAndEmitWholeNote qn s).1).clocksSinceLastBoundary = s.clocksSinceLastBoundary ∧
      ((checkAndEmitWholeNote qn s).1).noteOn =
        (if offCond s qn then false else s.noteOn) ∧
      ((checkAndEmitWholeNote qn s).1).isRunning = s.isRunning ∧
      ((checkAndEmitWholeNote qn s).1).currentBPM = s.currentBPM ∧
      ((checkAndEmitWholeNote qn s).1).clockCount = s.clockCount ∧
      ((checkAndEmitWholeNote qn s).1).sLastClockTime = s.sLastClockTime ∧
      ((checkAndEmitWholeNote qn s).1).sClockWindow = s.sClockWindow ∧
      ((checkAndEmitWholeNote qn s).1).bpmUpdateBlocked = s.bpmUpdateBlocked ∧
      ((checkAndEmitWholeNote qn s).1).transportSyncBlocked = s.transportSyncBlocked ∧
      ((checkAndEmitWholeNote qn s).1).midiChannel = s.midiChannel ∧
      ((checkAndEmitWholeNote qn s).1).midiNote = s.midiNote ∧
      ((checkAndEmitWholeNote qn s).1).midiVelocity = s.midiVelocity := by
  by_cases hO : offCond s qn <;> simp [checkAndEmitWholeNote, h, hO]

/-- Helper: first-downbeat test on an integer-tick position. -/
lemma firstDownbeat_iff (s : SyncState) (t : ℕ) :
    firstDownbeatCond s ((t : ℚ) / 24) ↔ (t < 24 ∧ s.lastEmittedWholeNote < 0) := by
  unfold firstDownbeatCond
  rw [floor_qn_div4]
  have h1 : (((t / 96 : ℕ) : ℤ) = 0) ↔ t < 96 := by
    rw [Nat.cast_eq_zero]
    omega
  have h2 : ((t : ℚ) / 24 < 1) ↔ t < 24 := by
    rw [div_lt_one (by norm_num)]
    exact_mod_cast Iff.rfl
  rw [h1, h2]
  constructor
  · rintro ⟨_, hL, ht⟩
    exact ⟨ht, hL⟩
  · rintro ⟨ht, hL⟩
    exact ⟨by omega, hL, ht⟩

/-- Helper: ticks remaining to the next boundary on an integer-tick position. -/
lemma ticksToNext_eq (t : ℕ) :
    (4 - ((t : ℚ) / 24 - (⌊((t : ℚ) / 24) / 4⌋ : ℚ) * 4)) * 24 =
      96 - ((t % 96 : ℕ) : ℚ) := by
  rw [floor_qn_div4, posInBoundary_eq]
  ring

/-- Helper: the claim's advance formula agrees with the code's for an
in-range BPM. -/
lemma advanceTicks_claim (b : ℚ) (h1 : 20 ≤ b) (h2 : b ≤ 300) :
    advanceTicks b = max (3 / 2) (70 / (60000 / b / 24)) := by
  rw [advanceTicks_eq b h1 h2]
  congr 1
  have hb : b ≠ 0 := by positivity
  field_simp
  ring

/-- Helper: the emit decision on an integer-tick position, claim form. -/
lemma emitCond_iff (s : SyncState) (t : ℕ)
    (h20 : 20 ≤ s.currentBPM) (h300 : s.currentBPM ≤ 300) :
    emitCond s ((t : ℚ) / 24) ↔
      ((((t / 96 : ℕ) : ℤ) + 1 > s.lastEmittedWholeNote ∧
          (96 : ℚ) - ((t % 96 : ℕ) : ℚ) ≤ max (3 / 2) (70 / (60000 / s.currentBPM / 24))) ∨
        (t / 96 = 0 ∧ s.lastEmittedWholeNote < 0 ∧ (t : ℚ) / 24 < 1)) := by
  unfold emitCond
  rw [firstDownbeat_iff, ticksToNext_eq, floor_qn_div4,
    advanceTicks_claim s.currentBPM h20 h300]
  have h2 : ((t : ℚ) / 24 < 1) ↔ t < 24 := by
    rw [div_lt_one (by norm_num)]
    exact_mod_cast Iff.rfl
  constructor
  · rintro (⟨ht, hL⟩ | hA)
    · exact Or.inr ⟨by omega, hL, h2.mpr ht⟩
    · exact Or.inl hA
  · rintro (hA | ⟨_, hL, ht⟩)
    · exact Or.inr hA
    · exact Or.inl ⟨h2.mp ht, hL⟩

/-- Helper: the note-off decision on an integer-tick position: fires exactly
on ticks 1..9 past a whole-note boundary while a note is sounding. -/
lemma offCond_iff (s : SyncState) (t : ℕ) :
    offCond s ((t : ℚ) / 24) ↔ (s.noteOn = true ∧ 1 ≤ t % 96 ∧ t % 96 ≤ 9) := by
  unfold offCond
  rw [floor_qn_div4, posInBoundary_eq]
  have h1 : ((0 : ℚ) < ((t % 96 : ℕ) : ℚ) / 24) ↔ 1 ≤ t % 96 := by
    rw [lt_div_iff₀ (by norm_num : (0:ℚ) < 24)]
    norm_num
    omega
  have h2 : (((t % 96 : ℕ) : ℚ) / 24 < 2 / 5) ↔ t % 96 ≤ 9 := by
    rw [div_lt_iff₀ (by norm_num : (0:ℚ) < 24)]
    constructor
    · intro h
      have : ((t % 96 : ℕ) : ℚ) < 48 / 5 := by linarith
      have h5 : ((5 * (t % 96) : ℕ) : ℚ) < 48 := by push_cast; linarith
      have : 5 * (t % 96) < 48 := by exact_mod_cast h5
      omega
    · intro h
      have : ((t % 96 : ℕ) : ℚ) ≤ 9 := by exact_mod_cast h
      linarith
  rw [h1, h2]

/-- Helper: the first-downbeat test written the way the claim writes it. -/
lemma firstDownbeat_claim_iff (s : SyncState) (t : ℕ) :
    firstDownbeatCond s ((t : ℚ) / 24) ↔
      (t / 96 = 0 ∧ s.lastEmittedWholeNote < 0 ∧ (t : ℚ) / 24 < 1) := by
  unfold firstDownbeatCond
  rw [floor_qn_div4]
  constructor
  · rintro ⟨a, b, c⟩
    exact ⟨by exact_mod_cast a, b, c⟩
  · rintro ⟨a, b, c⟩
    exact ⟨by exact_mod_cast a, b, c⟩

/-- Helper: the boundary marked by an emission, on an integer-tick position. -/
lemma emittedBoundary_eq (s : SyncState) (t : ℕ) :
    emittedBoundary s ((t : ℚ) / 24) =
      (if firstDownbeatCond s ((t : ℚ) / 24) then 0 else ((t / 96 : ℕ) : ℤ) + 1) := by
  unfold emittedBoundary
  by_cases h : firstDownbeatCond s ((t : ℚ) / 24)
  · rw [if_pos h, if_pos h]
    exact h.1
  · rw [if_neg h, if_neg h, floor_qn_div4]

/-- C1: while running, a tick `t` makes the scheduler send a note-on exactly
when either (A) `next_boundary = t / 96 + 1` exceeds `last_emitted_boundary`
and the ticks remaining to it, `96 − t mod 96`, are at most
`advance_ticks = max(1.5, 70 / ((60000 / bpm) / 24))`, or (B) the
first-downbeat case `t / 96 = 0 ∧ last_emitted_boundary < 0 ∧ t / 24 < 1`
holds; under (B) the emission is for boundary 0, under (A) (and not B) for
`next_boundary`; any emission sets `note_on`, records the emitted boundary in
`last_emitted_boundary` and resets `ticks_since_last_boundary` to 0. -/
theorem scheduler_noteOn_characterization (s : SyncState) (t : ℕ)
    (h20 : 20 ≤ s.currentBPM) (h300 : s.currentBPM ≤ 300) :
    ((Event.noteOn s.midiChannel s.midiNote s.midiVelocity ∈
        (checkAndEmitWholeNote ((t : ℚ) / 24) s).2) ↔
      ((((t / 96 : ℕ) : ℤ) + 1 > s.lastEmittedWholeNote ∧
          (96 : ℚ) - ((t % 96 : ℕ) : ℚ) ≤ max (3 / 2) (70 / (60000 / s.currentBPM / 24))) ∨
        (t / 96 = 0 ∧ s.lastEmittedWholeNote < 0 ∧ (t : ℚ) / 24 < 1))) ∧
    ((t / 96 = 0 ∧ s.lastEmittedWholeNote < 0 ∧ (t : ℚ) / 24 < 1) →
      Event.beatSent 0 ∈ (checkAndEmitWholeNote ((t : ℚ) / 24) s).2 ∧
        ((checkAndEmitWholeNote ((t : ℚ) / 24) s).1).lastEmittedWholeNote = 0) ∧
    (((((t / 96 : ℕ) : ℤ) + 1 > s.lastEmittedWholeNote ∧
          (96 : ℚ) - ((t % 96 : ℕ) : ℚ) ≤ max (3 / 2) (70 / (60000 / s.currentBPM / 24))) ∧
        ¬(t / 96 = 0 ∧ s.lastEmittedWholeNote < 0 ∧ (t : ℚ) / 24 < 1)) →
      Event.beatSent ((((t / 96 : ℕ) : ℤ) + 1) * 4) ∈
          (checkAndEmitWholeNote ((t : ℚ) / 24) s).2 ∧
        ((checkAndEmitWholeNote ((t : ℚ) / 24) s).1).lastEmittedWholeNote =
          ((t / 96 : ℕ) : ℤ) + 1) ∧
    (((((t / 96 : ℕ) : ℤ) + 1 > s.lastEmittedWholeNote ∧
          (96 : ℚ) - ((t % 96 : ℕ) : ℚ) ≤ max (3 / 2) (70 / (60000 / s.currentBPM / 24))) ∨
        (t / 96 = 0 ∧ s.lastEmittedWholeNote < 0 ∧ (t : ℚ) / 24 < 1)) →
      ((checkAndEmitWholeNote ((t : ℚ) / 24) s).1).noteOn = true ∧
        ((checkAndEmitWholeNote ((t : ℚ) / 24) s).1).clocksSinceLastBoundary = 0) := by
  have hE := emitCond_iff s t h20 h300
  refine ⟨by rw [mem_noteOn_iff]; exact hE, ?_, ?_, ?_⟩
  · intro hB
    have hFd : firstDownbeatCond s ((t : ℚ) / 24) := (firstDownbeat_claim_iff s t).mpr hB
    have hEmit : emitCond s ((t : ℚ) / 24) := by
      unfold emitCond
      exact Or.inl hFd
    have hbd : emittedBoundary s ((t : ℚ) / 24) = 0 := by
      rw [emittedBoundary_eq, if_pos hFd]
    constructor
    · rw [mem_beatSent_iff]
      exact ⟨hEmit, by rw [hbd]; ring⟩
    · rw [(checkAndEmit_state_emit s _ hEmit).1, hbd]
  · rintro ⟨hA, hNB⟩
    have hFd : ¬firstDownbeatCond s ((t : ℚ) / 24) := fun h =>
      hNB ((firstDownbeat_claim_iff s t).mp h)
    have hEmit : emitCond s ((t : ℚ) / 24) := hE.mpr (Or.inl hA)
    have hbd : emittedBoundary s ((t : ℚ) / 24) = ((t / 96 : ℕ) : ℤ) + 1 := by
      rw [emittedBoundary_eq, if_neg hFd]
    constructor
    · rw [mem_beatSent_iff]
      exact ⟨hEmit, by rw [hbd]⟩
    · rw [(checkAndEmit_state_emit s _ hEmit).1, hbd]
  · intro hAB
    have hEmit : emitCond s ((t : ℚ) / 24) := hE.mpr hAB
    have h := checkAndEmit_state_emit s _ hEmit
    exact ⟨h.2.2.1, h.2.1⟩

/-- Witness for `scheduler_noteOn_characterization`: at tick 93 with
`last_emitted_boundary = 0` and 120 BPM, the scheduler emits (3 ticks remain,
the advance window is 3.36 ticks). -/
theorem scheduler_noteOn_characterization_witness :
    Event.noteOn 0 60 100 ∈ (checkAndEmitWholeNote ((93 : ℚ) / 24) wStateC1).2 := by
  have h := (scheduler_noteOn_characterization wStateC1 93
    (by norm_num [wStateC1, initState]) (by norm_num [wStateC1, initState])).1
  have hA : (((93 / 96 : ℕ) : ℤ) + 1 > wStateC1.lastEmittedWholeNote ∧
      (96 : ℚ) - ((93 % 96 : ℕ) : ℚ) ≤
        max (3 / 2) (70 / (60000 / wStateC1.currentBPM / 24))) := by
    constructor
    · norm_num [wStateC1, initState]
    · have hb : wStateC1.currentBPM = 120 := by norm_num [wStateC1, initState]
      rw [hb]
      rw [le_max_iff]
      right
      norm_num
  exact h.mpr (Or.inl hA)

/-! ### C7 : the BPM estimator window -/

/-- Helper: `updateSyncTimer` only touches the timer period. -/
lemma updateSyncTimer_currentBPM (s : SyncState) :
    (updateSyncTimer s).currentBPM = s.currentBPM := by
  unfold updateSyncTimer
  split_ifs <;> rfl

/-- Helper: `updateSyncTimer` leaves the window counter alone. -/
lemma updateSyncTimer_sClockWindow (s : SyncState) :
    (updateSyncTimer s).sClockWindow = s.sClockWindow := by
  unfold updateSyncTimer
  split_ifs <;> rfl

/-- Helper: `updateSyncTimer` leaves the window start alone. -/
lemma updateSyncTimer_sLastClockTime (s : SyncState) :
    (updateSyncTimer s).sLastClockTime = s.sLastClockTime := by
  unfold updateSyncTimer
  split_ifs <;> rfl

/-- Helper: `updateSyncTimer` leaves the block flag alone. -/
lemma updateSyncTimer_bpmUpdateBlocked (s : SyncState) :
    (updateSyncTimer s).bpmUpdateBlocked = s.bpmUpdateBlocked := by
  unfold updateSyncTimer
  split_ifs <;> rfl

/-- Helper: on the 24th pulse of a window (counter at 1) the estimator
measures `now − window_start`, proposes `60 / elapsed`, accepts exactly when
the elapsed time is in (0.2, 3.0), the proposal differs from the current BPM
by more than 0.5 and updates are not blocked, and restarts the window. -/
lemma bpmWindowStep_calc (now : ℚ) (s : SyncState) (h : s.sClockWindow = 1) :
    (bpmWindowStep now s).sClockWindow = 24 ∧
      (bpmWindowStep now s).sLastClockTime = now ∧
      (bpmWindowStep now s).currentBPM =
        (if 1 / 5 < now - s.sLastClockTime ∧ now - s.sLastClockTime < 3 ∧
            1 / 2 < |60 / (now - s.sLastClockTime) - s.currentBPM| ∧
            s.bpmUpdateBlocked = false
         then 60 / (now - s.sLastClockTime) else s.currentBPM) := by
  have h0 : ¬(s.sClockWindow = 0) := by rw [h]; norm_num
  have hc2 : s.sClockWindow - 1 = 0 := by omega
  simp only [bpmWindowStep, if_neg h0]
  rw [if_pos hc2]
  by_cases hR : 1 / 5 < now - s.sLastClockTime ∧ now - s.sLastClockTime < 3
  · have he0 : (0:ℚ) < now - s.sLastClockTime := lt_trans (by norm_num) hR.1
    have h20 : (20:ℚ) ≤ 60 / (now - s.sLastClockTime) := by
      rw [le_div_iff₀ he0]
      linarith [hR.2]
    have h300 : 60 / (now - s.sLastClockTime) ≤ 300 := by
      rw [div_le_iff₀ he0]
      linarith [hR.1]
    rw [if_pos hR]
    by_cases hAcc : 1 / 2 < |60 / (now - s.sLastClockTime) - s.currentBPM| ∧
        s.bpmUpdateBlocked = false
    · rw [if_pos ⟨h20, h300, hAcc.1, hAcc.2⟩, if_pos ⟨hR.1, hR.2, hAcc.1, hAcc.2⟩]
      refine ⟨rfl, rfl, ?_⟩
      rw [updateSyncTimer_currentBPM]
    · rw [if_neg fun hz => hAcc ⟨hz.2.2.1, hz.2.2.2⟩,
        if_neg fun hz => hAcc ⟨hz.2.2.1, hz.2.2.2⟩]
      exact ⟨rfl, rfl, rfl⟩
  · rw [if_neg hR, if_neg fun hz => hR ⟨hz.1, hz.2.1⟩]
    exact ⟨rfl, rfl, rfl⟩

/-- Helper: a pulse with the window counter away from 0 and 1 only
decrements the counter. -/
lemma bpmWindowStep_noCalc (now : ℚ) (s : SyncState) (h1 : s.sClockWindow ≠ 1)
    (h0 : s.sClockWindow ≠ 0) :
    bpmWindowStep now s = { s with sClockWindow := s.sClockWindow - 1 } := by
  have hns : ¬(s.sClockWindow - 1 = 0) := by omega
  simp only [bpmWindowStep, if_neg h0, if_neg hns]

/-- Helper: a pulse with the window counter exhausted captures the window
start and leaves 23 pulses to go. -/
lemma bpmWindowStep_zero (now : ℚ) (s : SyncState) (h : s.sClockWindow = 0) :
    bpmWindowStep now s = { s with sLastClockTime := now, sClockWindow := 23 } := by
  have hns : ¬((24 : ℤ) - 1 = 0) := by norm_num
  simp only [bpmWindowStep, if_pos h, if_neg hns]
  norm_num

/-- Helper: the critical path does not touch the BPM or window fields. -/
lemma clockAdvance_bpm_fields (now : ℚ) (s : SyncState) :
    (clockAdvance now s).currentBPM = s.currentBPM ∧
      (clockAdvance now s).sClockWindow = s.sClockWindow ∧
      (clockAdvance now s).sLastClockTime = s.sLastClockTime ∧
      (clockAdvance now s).bpmUpdateBlocked = s.bpmUpdateBlocked ∧
      (clockAdvance now s).isRunning = s.isRunning := by
  by_cases h : s.isRunning = true <;> simp [clockAdvance, h]

/-- Helper: a clock pulse is the BPM window step applied to a state whose
BPM and window fields agree with the incoming state's. -/
lemma handleMIDIClock_window_state (now : ℚ) (s : SyncState) :
    ∃ q : SyncState, (handleMIDIClock now s).1 = bpmWindowStep now q ∧
      q.currentBPM = s.currentBPM ∧ q.sClockWindow = s.sClockWindow ∧
      q.sLastClockTime = s.sLastClockTime ∧ q.bpmUpdateBlocked = s.bpmUpdateBlocked := by
  have hca := clockAdvance_bpm_fields now s
  refine ⟨(if (clockAdvance now s).isRunning then
      checkAndEmitWholeNote ((((clockAdvance now s).clockCount : ℤ) : ℚ) / 24)
        (clockAdvance now s)
    else (clockAdvance now s, [])).1, rfl, ?_⟩
  by_cases hr : (clockAdvance now s).isRunning = true
  · rw [if_pos hr]
    by_cases hE : emitCond (clockAdvance now s) ((((clockAdvance now s).clockCount : ℤ) : ℚ) / 24)
    · have h := checkAndEmit_state_emit (clockAdvance now s) _ hE
      rw [h.2.2.2.2.1, h.2.2.2.2.2.2.1, h.2.2.2.2.2.2.2.1, h.2.2.2.2.2.2.2.2.1]
      exact ⟨hca.1, hca.2.1, hca.2.2.1, hca.2.2.2.1⟩
    · have h := checkAndEmit_state_noemit (clockAdvance now s) _ hE
      rw [h.2.2.2.2.1, h.2.2.2.2.2.2.1, h.2.2.2.2.2.2.2.1, h.2.2.2.2.2.2.2.2.1]
      exact ⟨hca.1, hca.2.1, hca.2.2.1, hca.2.2.2.1⟩
  · rw [if_neg hr]
    exact ⟨hca.1, hca.2.1, hca.2.2.1, hca.2.2.2.1⟩

/-- Helper: a pulse away from the window boundary decrements the counter and
changes neither the BPM, nor the window start, nor the block flag. -/
lemma handleMIDIClock_noCalc (now : ℚ) (s : SyncState) (h1 : s.sClockWindow ≠ 1)
    (h0 : s.sClockWindow ≠ 0) :
    (handleMIDIClock now s).1.sClockWindow = s.sClockWindow - 1 ∧
      (handleMIDIClock now s).1.sLastClockTime = s.sLastClockTime ∧
      (handleMIDIClock now s).1.currentBPM = s.currentBPM ∧
      (handleMIDIClock now s).1.bpmUpdateBlocked = s.bpmUpdateBlocked := by
  obtain ⟨q, hq, hb, hw, ht, hbl⟩ := handleMIDIClock_window_state now s
  rw [hq, bpmWindowStep_noCalc now q (by rw [hw]; exact h1) (by rw [hw]; exact h0)]
  exact ⟨by simp [hw], by simp [ht], by simp [hb], by simp [hbl]⟩

/-- Helper: the 24th pulse of a window runs the estimator decision. -/
lemma handleMIDIClock_calc (now : ℚ) (s : SyncState) (h : s.sClockWindow = 1) :
    (handleMIDIClock now s).1.sClockWindow = 24 ∧
      (handleMIDIClock now s).1.sLastClockTime = now ∧
      (handleMIDIClock now s).1.currentBPM =
        (if 1 / 5 < now - s.sLastClockTime ∧ now - s.sLastClockTime < 3 ∧
            1 / 2 < |60 / (now - s.sLastClockTime) - s.currentBPM| ∧
            s.bpmUpdateBlocked = false
         then 60 / (now - s.sLastClockTime) else s.currentBPM) := by
  obtain ⟨q, hq, hb, hw, ht, hbl⟩ := handleMIDIClock_window_state now s
  rw [hq]
  have hc := bpmWindowStep_calc now q (by rw [hw]; exact h)
  rw [ht, hb, hbl] at hc
  exact hc

/-- Helper: while the window counter stays positive, a run of pulses only
decrements it; BPM, window start and block flag are untouched. -/
lemma clockFold_decrement : ∀ (ts : List ℚ) (s : SyncState),
    (ts.length : ℤ) < s.sClockWindow →
    (clockFold ts s).sClockWindow = s.sClockWindow - ts.length ∧
      (clockFold ts s).sLastClockTime = s.sLastClockTime ∧
      (clockFold ts s).currentBPM = s.currentBPM ∧
      (clockFold ts s).bpmUpdateBlocked = s.bpmUpdateBlocked := by
  intro ts
  induction ts with
  | nil =>
    intro s h
    simp [clockFold]
  | cons a ts ih =>
    intro s h
    have hlen : ((a :: ts).length : ℤ) = (ts.length : ℤ) + 1 := by
      simp
    rw [hlen] at h
    have h1 : s.sClockWindow ≠ 1 := by omega
    have h0 : s.sClockWindow ≠ 0 := by omega
    have step := handleMIDIClock_noCalc a s h1 h0
    have hrw : clockFold (a :: ts) s = clockFold ts (handleMIDIClock a s).1 := rfl
    rw [hrw]
    have hih := ih ((handleMIDIClock a s).1) (by rw [step.1]; omega)
    refine ⟨?_, ?_, ?_, ?_⟩
    · rw [hih.1, step.1, hlen]
      ring
    · rw [hih.2.1, step.2.1]
    · rw [hih.2.2.1, step.2.2.1]
    · rw [hih.2.2.2, step.2.2.2]

/-- C7: starting a window (counter 24, start instant `s.sLastClockTime`), the
first 23 pulses only count down — the BPM and the window start are untouched —
and the 24th pulse at instant `t24` measures `elapsed = t24 − window_start`
over exactly 24 pulses, proposes `60 / elapsed`, overwrites `current_bpm`
exactly when `elapsed ∈ (0.2, 3.0)`, `|proposal − current_bpm| > 0.5` and
updates are not blocked, and restarts the window from `t24` in either case. -/
theorem bpm_estimator_window (s : SyncState) (ts : List ℚ) (t24 : ℚ)
    (hw : s.sClockWindow = 24) (hlen : ts.length = 23) :
    (clockFold ts s).currentBPM = s.currentBPM ∧
      (clockFold ts s).sClockWindow = 1 ∧
      (clockFold ts s).sLastClockTime = s.sLastClockTime ∧
      (handleMIDIClock t24 (clockFold ts s)).1.currentBPM =
        (if 1 / 5 < t24 - s.sLastClockTime ∧ t24 - s.sLastClockTime < 3 ∧
            1 / 2 < |60 / (t24 - s.sLastClockTime) - s.currentBPM| ∧
            s.bpmUpdateBlocked = false
         then 60 / (t24 - s.sLastClockTime) else s.currentBPM) ∧
      (handleMIDIClock t24 (clockFold ts s)).1.sClockWindow = 24 ∧
      (handleMIDIClock t24 (clockFold ts s)).1.sLastClockTime = t24 := by
  have hf := clockFold_decrement ts s (by rw [hw, hlen]; norm_num)
  have hw1 : (clockFold ts s).sClockWindow = 1 := by
    rw [hf.1, hw, hlen]
    norm_num
  have hc := handleMIDIClock_calc t24 (clockFold ts s) hw1
  rw [hf.2.1, hf.2.2.1, hf.2.2.2] at hc
  exact ⟨hf.2.2.1, hw1, hf.2.1, hc.2.2, hc.1, hc.2.1⟩

/-- Witness for `bpm_estimator_window`: 23 pulses at time 0 from a fresh
24-window at start 0, then the 24th pulse at 0.625 s: elapsed 0.625 ∈
(0.2, 3), proposal 96, |96 − 120| > 0.5, not blocked, so the BPM becomes 96. -/
theorem bpm_estimator_window_witness :
    (handleMIDIClock (5 / 8) (clockFold (List.replicate 23 (0 : ℚ)) wStateC7)).1.currentBPM
      = 96 := by
  have h := bpm_estimator_window wStateC7 (List.replicate 23 (0 : ℚ)) (5 / 8)
    (by norm_num [wStateC7, initState]) (by simp)
  rw [h.2.2.2.1]
  norm_num [wStateC7, initState]

/-! ### Canonical slave run: step analysis -/

/-- Helper: the critical path while running advances the tick and recomputes
the position from it. -/
lemma clockAdvance_running (now : ℚ) (s : SyncState) (h : s.isRunning = true) :
    clockAdvance now s =
      { s with incomingClockCount := s.incomingClockCount + 1
               lastClockMessageTime := now
               clockCount := s.clockCount + 1
               clocksSinceLastBoundary := s.clocksSinceLastBoundary + 1
               currentPositionQuarterNotes := ((s.clockCount + 1 : ℤ) : ℚ) / 24
               currentPositionBeats := cppTruncInt (((s.clockCount + 1 : ℤ) : ℚ) / 24 * 4) } := by
  simp only [clockAdvance]
  rw [if_pos]
  exact h

/-- Helper: the BPM window step never touches the scheduler state. -/
lemma bpmWindowStep_preserves (now : ℚ) (s : SyncState) :
    (bpmWindowStep now s).isRunning = s.isRunning ∧
      (bpmWindowStep now s).clockCount = s.clockCount ∧
      (bpmWindowStep now s).lastEmittedWholeNote = s.lastEmittedWholeNote ∧
      (bpmWindowStep now s).noteOn = s.noteOn ∧
      (bpmWindowStep now s).midiChannel = s.midiChannel ∧
      (bpmWindowStep now s).midiNote = s.midiNote ∧
      (bpmWindowStep now s).midiVelocity = s.midiVelocity ∧
      (bpmWindowStep now s).bpmUpdateBlocked = s.bpmUpdateBlocked ∧
      (bpmWindowStep now s).transportSyncBlocked = s.transportSyncBlocked := by
  by_cases h0 : s.sClockWindow = 0
  · rw [bpmWindowStep_zero now s h0]
    exact ⟨rfl, rfl, rfl, rfl, rfl, rfl, rfl, rfl, rfl⟩
  by_cases h1 : s.sClockWindow = 1
  · have hc2 : s.sClockWindow - 1 = 0 := by omega
    simp only [bpmWindowStep, if_neg h0]
    rw [if_pos hc2]
    by_cases hR : 1 / 5 < now - s.sLastClockTime ∧ now - s.sLastClockTime < 3
    · rw [if_pos hR]
      by_cases hz : 20 ≤ 60 / (now - s.sLastClockTime) ∧ 60 / (now - s.sLastClockTime) ≤ 300 ∧
          1 / 2 < |60 / (now - s.sLastClockTime) - s.currentBPM| ∧ s.bpmUpdateBlocked = false
      · rw [if_pos hz]
        unfold updateSyncTimer
        split_ifs <;> exact ⟨rfl, rfl, rfl, rfl, rfl, rfl, rfl, rfl, rfl⟩
      · rw [if_neg hz]
        exact ⟨rfl, rfl, rfl, rfl, rfl, rfl, rfl, rfl, rfl⟩
    · rw [if_neg hR]
      exact ⟨rfl, rfl, rfl, rfl, rfl, rfl, rfl, rfl, rfl⟩
  · rw [bpmWindowStep_noCalc now s h1 h0]
    exact ⟨rfl, rfl, rfl, rfl, rfl, rfl, rfl, rfl, rfl⟩

/-- Helper: with all pulses at instant 0 and the window start at 0, the BPM
window never changes the BPM (the elapsed time is 0) and the window start
stays 0. -/
lemma bpmWindowStep_zero_time (s : SyncState) (ht : s.sLastClockTime = 0) :
    (bpmWindowStep 0 s).currentBPM = s.currentBPM ∧
      (bpmWindowStep 0 s).sLastClockTime = 0 := by
  by_cases h0 : s.sClockWindow = 0
  · rw [bpmWindowStep_zero 0 s h0]
    exact ⟨rfl, rfl⟩
  by_cases h1 : s.sClockWindow = 1
  · have hc := bpmWindowStep_calc 0 s h1
    rw [ht] at hc
    refine ⟨?_, hc.2.1⟩
    rw [hc.2.2, if_neg]
    intro hx
    norm_num at hx
  · rw [bpmWindowStep_noCalc 0 s h1 h0]
    exact ⟨rfl, ht⟩

/-- Helper: the 3.36-tick advance window at 120 BPM converts to ticks: the
remaining distance is inside the window exactly from tick offset 93 on. -/
lemma advance_window_iff (m : ℕ) :
    ((96 : ℚ) - (m : ℚ) ≤ 84 / 25) ↔ 93 ≤ m := by
  constructor
  · intro h
    have h1 : (2316 : ℚ) ≤ 25 * (m : ℚ) := by linarith
    have h2 : (2316 : ℕ) ≤ 25 * m := by exact_mod_cast h1
    omega
  · intro h
    have h2 : (93 : ℚ) ≤ (m : ℚ) := by exact_mod_cast h
    linarith

/-- Helper: the advance window of the claim formula at 120 BPM is 3.36. -/
lemma max_advance_120 : max (3 / 2 : ℚ) (70 / (60000 / (120 : ℚ) / 24)) = 84 / 25 := by
  have h : (70 : ℚ) / (60000 / (120 : ℚ) / 24) = 84 / 25 := by norm_num
  rw [h, max_eq_right]
  norm_num

/-- Helper: the emit decision of the canonical run at tick `n + 1`. -/
lemma emit_resolve (n : ℕ) (s' : SyncState) (hbpm : s'.currentBPM = 120)
    (hlast : s'.lastEmittedWholeNote = lastEmSpec n) :
    (emitCond s' (((n + 1 : ℕ) : ℚ) / 24) ↔ emitAtSpec (n + 1) = true) := by
  rw [emitCond_iff s' (n + 1) (by rw [hbpm]; norm_num) (by rw [hbpm]; norm_num),
    hbpm, hlast, max_advance_120, advance_window_iff]
  have hq : ((((n + 1 : ℕ)) : ℚ) / 24 < 1) ↔ (n + 1) < 24 := by
    rw [div_lt_one (by norm_num)]
    exact_mod_cast Iff.rfl
  rw [hq]
  unfold lastEmSpec emitAtSpec
  split_ifs with h
  · subst h
    norm_num
  · simp only [decide_eq_true_eq]
    omega

/-- Helper: the note-off decision of the canonical run at tick `n + 1`. -/
lemma off_resolve (n : ℕ) (s' : SyncState) (hnote : s'.noteOn = noteOnSpec n) :
    (offCond s' (((n + 1 : ℕ) : ℚ) / 24) ↔ offAtSpec (n + 1) = true) := by
  rw [offCond_iff, hnote]
  unfold noteOnSpec offAtSpec
  simp only [decide_eq_true_eq]
  omega

/-- Helper: note-on count distributes over append. -/
lemma countNoteOn_append (l1 l2 : List Event) :
    countNoteOn (l1 ++ l2) = countNoteOn l1 + countNoteOn l2 :=
  List.countP_append _ _ _

/-- Helper: note-off count distributes over append. -/
lemma countNoteOff_append (l1 l2 : List Event) :
    countNoteOff (l1 ++ l2) = countNoteOff l1 + countNoteOff l2 :=
  List.countP_append _ _ _

/-- Helper: the closed forms for the boundary marker agree from tick 1 on. -/
lemma lastEmSpec_succ_eq_boundSpec (n : ℕ) : lastEmSpec (n + 1) = boundSpec (n + 1) := by
  unfold lastEmSpec boundSpec
  rw [if_neg (by omega)]

/-- Helper: away from emission ticks the boundary marker closed form is
stable. -/
lemma lastEmSpec_stable (n : ℕ) (hnat : ¬(n + 1 = 1 ∨ (n + 1) % 96 = 93)) :
    lastEmSpec n = lastEmSpec (n + 1) := by
  have hn0 : ¬(n = 0) := by omega
  unfold lastEmSpec
  rw [if_neg hn0, if_neg (by omega : ¬(n + 1 = 0))]
  have hd : (n + 3) / 96 = (n + 1 + 3) / 96 := by omega
  exact_mod_cast hd

/-- Helper: away from emission and release ticks the sounding-note closed
form is stable. -/
lemma noteOnSpec_stable (n : ℕ) (hnat : ¬(n + 1 = 1 ∨ (n + 1) % 96 = 93))
    (hnoff : ¬(n + 1 = 2 ∨ (97 ≤ n + 1 ∧ (n + 1) % 96 = 1))) :
    noteOnSpec n = noteOnSpec (n + 1) := by
  unfold noteOnSpec
  rw [decide_eq_decide]
  omega

/-- Helper: one clock pulse of the canonical slave run — the invariant is
preserved, the pulse sends a note-on (a note-off) exactly on the ticks of
`emitAtSpec` (`offAtSpec`), and any `beatSent` notification carries four
times the boundary of `boundSpec`. -/
lemma slave_step (n : ℕ) (s : SyncState) (hInv : SlaveInv n s) :
    SlaveInv (n + 1) (handleMIDIClock 0 s).1 ∧
      countNoteOn (handleMIDIClock 0 s).2 = (if emitAtSpec (n + 1) = true then 1 else 0) ∧
      countNoteOff (handleMIDIClock 0 s).2 = (if offAtSpec (n + 1) = true then 1 else 0) ∧
      (∀ q : ℤ, Event.beatSent q ∈ (handleMIDIClock 0 s).2 ↔
        (emitAtSpec (n + 1) = true ∧ q = boundSpec (n + 1) * 4)) := by
  obtain ⟨hrun, hbpm, htime, hblk, htrb, hch, hnt, hvel, hcc, hlast, hno⟩ := hInv
  have hca := clockAdvance_running 0 s hrun
  have hBrun : (clockAdvance 0 s).isRunning = true := by rw [hca]; exact hrun
  have hBcc : (clockAdvance 0 s).clockCount = (n : ℤ) + 1 := by
    rw [hca]
    show s.clockCount + 1 = _
    rw [hcc]
  have hBbpm : (clockAdvance 0 s).currentBPM = 120 := by rw [hca]; exact hbpm
  have hBlast : (clockAdvance 0 s).lastEmittedWholeNote = lastEmSpec n := by
    rw [hca]; exact hlast
  have hBnote : (clockAdvance 0 s).noteOn = noteOnSpec n := by rw [hca]; exact hno
  have hBtime : (clockAdvance 0 s).sLastClockTime = 0 := by rw [hca]; exact htime
  have hBblk : (clockAdvance 0 s).bpmUpdateBlocked = false := by rw [hca]; exact hblk
  have hBtrb : (clockAdvance 0 s).transportSyncBlocked = false := by rw [hca]; exact htrb
  have hBch : (clockAdvance 0 s).midiChannel = 0 := by rw [hca]; exact hch
  have hBnt : (clockAdvance 0 s).midiNote = 60 := by rw [hca]; exact hnt
  have hBvel : (clockAdvance 0 s).midiVelocity = 100 := by rw [hca]; exact hvel
  have hqn : (((clockAdvance 0 s).clockCount : ℤ) : ℚ) / 24 = ((n + 1 : ℕ) : ℚ) / 24 := by
    rw [hBcc]
    push_cast
    ring
  have hmain : handleMIDIClock 0 s =
      (bpmWindowStep 0
          (checkAndEmitWholeNote (((n + 1 : ℕ) : ℚ) / 24) (clockAdvance 0 s)).1,
        (checkAndEmitWholeNote (((n + 1 : ℕ) : ℚ) / 24) (clockAdvance 0 s)).2 ++
          [Event.clockTick]) := by
    simp only [handleMIDIClock]
    rw [if_pos hBrun, hqn]
  have hE := emit_resolve n (clockAdvance 0 s) hBbpm hBlast
  have hO := off_resolve n (clockAdvance 0 s) hBnote
  have hbdv : emitCond (clockAdvance 0 s) (((n + 1 : ℕ) : ℚ) / 24) →
      emittedBoundary (clockAdvance 0 s) (((n + 1 : ℕ) : ℚ) / 24) = boundSpec (n + 1) := by
    intro hEc
    have hemit := hE.mp hEc
    unfold emitAtSpec at hemit
    rw [decide_eq_true_eq] at hemit
    rw [emittedBoundary_eq]
    have hfd := firstDownbeat_iff (clockAdvance 0 s) (n + 1)
    rw [hBlast] at hfd
    by_cases hf : firstDownbeatCond (clockAdvance 0 s) (((n + 1 : ℕ) : ℚ) / 24)
    · rw [if_pos hf]
      have hc := hfd.mp hf
      have hn0 : n = 0 := by
        have hlt := hc.2
        unfold lastEmSpec at hlt
        split_ifs at hlt with h
        · exact h
        · exfalso
          omega
      subst hn0
      unfold boundSpec
      norm_num
    · rw [if_neg hf]
      unfold boundSpec
      rcases hemit with h1 | h93
      · exfalso
        apply hf
        apply hfd.mpr
        have hn0 : n = 0 := by omega
        subst hn0
        constructor
        · omega
        · unfold lastEmSpec
          rw [if_pos rfl]
          norm_num
      · omega
  refine ⟨?_, ?_, ?_, ?_⟩
  · -- the invariant after the pulse
    have hs1 : (handleMIDIClock 0 s).1 =
        bpmWindowStep 0
          (checkAndEmitWholeNote (((n + 1 : ℕ) : ℚ) / 24) (clockAdvance 0 s)).1 := by
      rw [hmain]
    rw [hs1]
    have hpres := bpmWindowStep_preserves 0
      (checkAndEmitWholeNote (((n + 1 : ℕ) : ℚ) / 24) (clockAdvance 0 s)).1
    by_cases hEc : emitCond (clockAdvance 0 s) (((n + 1 : ℕ) : ℚ) / 24)
    · have hst := checkAndEmit_state_emit (clockAdvance 0 s) _ hEc
      have hzt := bpmWindowStep_zero_time
        (checkAndEmitWholeNote (((n + 1 : ℕ) : ℚ) / 24) (clockAdvance 0 s)).1
        (by rw [hst.2.2.2.2.2.2.1]; exact hBtime)
      have hemit := hE.mp hEc
      unfold emitAtSpec at hemit
      rw [decide_eq_true_eq] at hemit
      refine ⟨?_, ?_, ?_, ?_, ?_, ?_, ?_, ?_, ?_, ?_, ?_⟩
      · rw [hpres.1, hst.2.2.2.1, hBrun]
      · rw [hzt.1, hst.2.2.2.2.1, hBbpm]
      · exact hzt.2
      · rw [hpres.2.2.2.2.2.2.2.1, hst.2.2.2.2.2.2.2.2.1, hBblk]
      · rw [hpres.2.2.2.2.2.2.2.2, hst.2.2.2.2.2.2.2.2.2.1, hBtrb]
      · rw [hpres.2.2.2.2.1, hst.2.2.2.2.2.2.2.2.2.2.1, hBch]
      · rw [hpres.2.2.2.2.2.1, hst.2.2.2.2.2.2.2.2.2.2.2.1, hBnt]
      · rw [hpres.2.2.2.2.2.2.1, hst.2.2.2.2.2.2.2.2.2.2.2.2, hBvel]
      · rw [hpres.2.1, hst.2.2.2.2.2.1, hBcc]
        push_cast
        ring
      · rw [hpres.2.2.1, hst.1, hbdv hEc, lastEmSpec_succ_eq_boundSpec]
      · rw [hpres.2.2.2.1, hst.2.2.1]
        unfold noteOnSpec
        rw [eq_comm, decide_eq_true_eq]
        omega
    · have hst := checkAndEmit_state_noemit (clockAdvance 0 s) _ hEc
      have hzt := bpmWindowStep_zero_time
        (checkAndEmitWholeNote (((n + 1 : ℕ) : ℚ) / 24) (clockAdvance 0 s)).1
        (by rw [hst.2.2.2.2.2.2.1]; exact hBtime)
      have hnat : ¬(n + 1 = 1 ∨ (n + 1) % 96 = 93) := by
        intro hx
        apply hEc
        apply hE.mpr
        unfold emitAtSpec
        rw [decide_eq_true_eq]
        exact hx
      refine ⟨?_, ?_, ?_, ?_, ?_, ?_, ?_, ?_, ?_, ?_, ?_⟩
      · rw [hpres.1, hst.2.2.2.1, hBrun]
      · rw [hzt.1, hst.2.2.2.2.1, hBbpm]
      · exact hzt.2
      · rw [hpres.2.2.2.2.2.2.2.1, hst.2.2.2.2.2.2.2.2.1, hBblk]
      · rw [hpres.2.2.2.2.2.2.2.2, hst.2.2.2.2.2.2.2.2.2.1, hBtrb]
      · rw [hpres.2.2.2.2.1, hst.2.2.2.2.2.2.2.2.2.2.1, hBch]
      · rw [hpres.2.2.2.2.2.1, hst.2.2.2.2.2.2.2.2.2.2.2.1, hBnt]
      · rw [hpres.2.2.2.2.2.2.1, hst.2.2.2.2.2.2.2.2.2.2.2.2, hBvel]
      · rw [hpres.2.1, hst.2.2.2.2.2.1, hBcc]
        push_cast
        ring
      · rw [hpres.2.2.1, hst.1, hBlast]
        exact lastEmSpec_stable n hnat
      · rw [hpres.2.2.2.1, hst.2.2.1]
        by_cases hOc : offCond (clockAdvance 0 s) (((n + 1 : ℕ) : ℚ) / 24)
        · rw [if_pos hOc]
          have hoff := hO.mp hOc
          unfold offAtSpec at hoff
          rw [decide_eq_true_eq] at hoff
          unfold noteOnSpec
          rw [eq_comm, decide_eq_false_iff_not]
          omega
        · rw [if_neg hOc, hBnote]
          have hnoff : ¬(n + 1 = 2 ∨ (97 ≤ n + 1 ∧ (n + 1) % 96 = 1)) := by
            intro hx
            apply hOc
            apply hO.mpr
            unfold offAtSpec
            rw [decide_eq_true_eq]
            exact hx
          exact noteOnSpec_stable n hnat hnoff
  · rw [hmain]
    show countNoteOn (_ ++ [Event.clockTick]) = _
    rw [countNoteOn_append, countNoteOn_checkAndEmit]
    have hz : countNoteOn [Event.clockTick] = 0 := rfl
    rw [hz, add_zero]
    exact if_congr hE rfl rfl
  · rw [hmain]
    show countNoteOff (_ ++ [Event.clockTick]) = _
    rw [countNoteOff_append, countNoteOff_checkAndEmit]
    have hz : countNoteOff [Event.clockTick] = 0 := rfl
    rw [hz, add_zero]
    exact if_congr hO rfl rfl
  · intro q
    rw [hmain]
    show Event.beatSent q ∈ _ ++ [Event.clockTick] ↔ _
    rw [List.mem_append]
    have hnc : ¬(Event.beatSent q ∈ [Event.clockTick]) := by simp
    constructor
    · rintro (hmem | hmem)
      · have hh := (mem_beatSent_iff _ _ _).mp hmem
        exact ⟨hE.mp hh.1, by rw [hh.2, hbdv hh.1]⟩
      · exact absurd hmem hnc
    · rintro ⟨hat, hq⟩
      left
      apply (mem_beatSent_iff _ _ _).mpr
      exact ⟨hE.mpr hat, by rw [hq, hbdv (hE.mpr hat)]⟩

/-- Helper: the canonical slave run satisfies the invariant at every tick. -/
lemma slave_Inv : ∀ n : ℕ, SlaveInv n (slaveState n) := by
  intro n
  induction n with
  | zero =>
    unfold SlaveInv
    decide
  | succ n ih => exact (slave_step n (slaveState n) ih).1

/-- Helper: note-on count of each step of the canonical slave run. -/
lemma slave_countOn (k : ℕ) :
    countNoteOn (slaveEvents k) = if emitAtSpec k = true then 1 else 0 := by
  cases k with
  | zero => decide
  | succ n => exact (slave_step n (slaveState n) (slave_Inv n)).2.1

/-- Helper: note-off count of each step of the canonical slave run. -/
lemma slave_countOff (k : ℕ) :
    countNoteOff (slaveEvents k) = if offAtSpec k = true then 1 else 0 := by
  cases k with
  | zero => decide
  | succ n => exact (slave_step n (slaveState n) (slave_Inv n)).2.2.1

/-- Helper: `beatSent` payloads of each step of the canonical slave run. -/
lemma slave_beatSent (k : ℕ) (q : ℤ) :
    Event.beatSent q ∈ slaveEvents k ↔ (emitAtSpec k = true ∧ q = boundSpec k * 4) := by
  cases k with
  | zero =>
    have hz : slaveEvents 0 = [Event.runningChanged true] := rfl
    rw [hz]
    constructor
    · intro h
      simp at h
    · rintro ⟨h, _⟩
      exact absurd h (by decide)
  | succ n => exact (slave_step n (slaveState n) (slave_Inv n)).2.2.2 q

/-- Helper: closed form of the note-on total over ticks `0 .. n`. -/
lemma onsUpTo_eq (n : ℕ) :
    onsUpTo n = (n + 3) / 96 + (if 1 ≤ n then 1 else 0) := by
  induction n with
  | zero =>
    show countNoteOn (slaveEvents 0) = _
    rw [slave_countOn 0, if_neg (by decide : ¬(emitAtSpec 0 = true))]
    norm_num
  | succ n ih =>
    show onsUpTo n + countNoteOn (slaveEvents (n + 1)) = _
    rw [slave_countOn (n + 1), ih]
    unfold emitAtSpec
    simp only [decide_eq_true_eq]
    split_ifs <;> omega

/-- Helper: closed form of the note-off total over ticks `0 .. n`. -/
lemma offsUpTo_eq (n : ℕ) :
    offsUpTo n = (if 2 ≤ n then 1 else 0) + (n - 1) / 96 := by
  induction n with
  | zero =>
    show countNoteOff (slaveEvents 0) = _
    rw [slave_countOff 0, if_neg (by decide : ¬(offAtSpec 0 = true))]
    norm_num
  | succ n ih =>
    show offsUpTo n + countNoteOff (slaveEvents (n + 1)) = _
    rw [slave_countOff (n + 1), ih]
    unfold offAtSpec
    simp only [decide_eq_true_eq]
    split_ifs <;> omega

/-- Helper: the trailing inbound Stop sends no note-on and exactly one
note-off when a note is still sounding. -/
lemma stop_counts (n : ℕ) :
    countNoteOn (handleDAWStop (slaveState n)).2 = 0 ∧
      countNoteOff (handleDAWStop (slaveState n)).2 =
        (if noteOnSpec n = true then 1 else 0) := by
  obtain ⟨hrun, _, _, _, htrb, _, _, _, _, _, hno⟩ := slave_Inv n
  unfold handleDAWStop
  rw [if_pos ⟨by rw [htrb]; simp, hrun⟩]
  unfold stop
  rw [hno]
  split_ifs with h h2 <;> simp_all [countNoteOn, countNoteOff]

/-- C2 counterexample: the claimed count `floor(N/96) + 1` fails at N = 0
(no tick is ever processed, so no note-on at all is sent) and at N = 93
(the note-on for boundary 1 is already emitted at tick 93, three ticks
before the boundary, giving 2 note-ons where the claim predicts 1). -/
theorem slave_run_count_counterexample :
    ¬(slaveTotalOns 0 = 0 / 96 + 1) ∧ ¬(slaveTotalOns 93 = 93 / 96 + 1) := by
  have h0 : slaveTotalOns 0 = 0 := by
    unfold slaveTotalOns
    rw [onsUpTo_eq, (stop_counts 0).1]
    norm_num
  have h93 : slaveTotalOns 93 = 2 := by
    unfold slaveTotalOns
    rw [onsUpTo_eq, (stop_counts 93).1]
    norm_num
  constructor
  · rw [h0]
    norm_num
  · rw [h93]
    norm_num

/-- C2 (amended): after Start, N clocks all at the default 120 BPM, and
Stop, the total number of note-ons is 0 for N = 0 and
`floor((N + 3) / 96) + 1` for N ≥ 1 (each boundary b ≥ 1 is emitted
predictively at tick 96 b − 3, and boundary 0 at tick 1), and the total
number of note-offs — counting the one the trailing Stop sends for a
still-sounding note — equals the total number of note-ons. -/
theorem slave_run_note_counts (N : ℕ) :
    slaveTotalOns N = (if N = 0 then 0 else (N + 3) / 96 + 1) ∧
      slaveTotalOffs N = slaveTotalOns N := by
  unfold slaveTotalOns slaveTotalOffs
  rw [onsUpTo_eq, offsUpTo_eq, (stop_counts N).1, (stop_counts N).2]
  unfold noteOnSpec
  simp only [decide_eq_true_eq]
  split_ifs <;> omega

/-- C6 counterexample: in the canonical slave run the note-on for boundary 1
is emitted at tick 93, and the note-off preceding it is the one at tick 2
(no other note-off occurs in between); tick 2 is not in the claimed interval
`[96·1, 96·1 + 10)`. -/
theorem noteOff_interval_counterexample :
    Event.beatSent ((1 : ℤ) * 4) ∈ slaveEvents 93 ∧
      1 ≤ countNoteOff (slaveEvents 2) ∧
      (∀ v, 2 < v → v < 93 → countNoteOff (slaveEvents v) = 0) ∧
      ¬(96 * 1 ≤ 2) := by
  refine ⟨?_, ?_, ?_, by norm_num⟩
  · rw [slave_beatSent]
    exact ⟨by decide, by decide⟩
  · rw [slave_countOff, if_pos (by decide : offAtSpec 2 = true)]
  · intro v h2 h93
    have hx : ¬(offAtSpec v = true) := by
      intro h
      unfold offAtSpec at h
      rw [decide_eq_true_eq] at h
      omega
    rw [slave_countOff v, if_neg hx]

/-- C6 (amended): on each tick, a note-off(channel, note, 0) is sent (and
the sounding flag cleared) exactly when a note is sounding and
`0 < positionInCurrent < 0.4` with `positionInCurrent = qn − 4⌊qn/4⌋`;
consequently, in the canonical slave run, for every emitted note-on at
boundary b ≥ 1 the immediately preceding note-off occurred at a tick in
`[96(b−1), 96(b−1) + 10)` — one tick after the PREVIOUS boundary, not (as
the claim stated) after boundary b itself, because the note of boundary
b − 1 is already released on the first tick past its own downbeat. -/
theorem noteOff_window_behavior :
    (∀ (s : SyncState) (qn : ℚ),
      (Event.noteOff s.midiChannel s.midiNote 0 ∈ (checkAndEmitWholeNote qn s).2 ↔
        (s.noteOn = true ∧ 0 < qn - ⌊qn / 4⌋ * 4 ∧ qn - ⌊qn / 4⌋ * 4 < 2 / 5))) ∧
    (∀ b t u : ℕ, 1 ≤ b →
      Event.beatSent ((b : ℤ) * 4) ∈ slaveEvents t →
      1 ≤ countNoteOff (slaveEvents u) →
      u < t →
      (∀ v, v < t → 1 ≤ countNoteOff (slaveEvents v) → v ≤ u) →
      96 * (b - 1) ≤ u ∧ u < 96 * (b - 1) + 10) := by
  constructor
  · intro s qn
    exact mem_noteOff_iff s qn
  · intro b t u hb hmem hoffu hut hmax
    have h1 := (slave_beatSent t ((b : ℤ) * 4)).mp hmem
    have hemit : t = 1 ∨ t % 96 = 93 := by
      have h2 := h1.1
      unfold emitAtSpec at h2
      rw [decide_eq_true_eq] at h2
      exact h2
    have hbt : b = (t + 3) / 96 := by
      have h2 := h1.2
      unfold boundSpec at h2
      have h3 : (b : ℤ) = ((t + 3) / 96 : ℕ) := by omega
      exact_mod_cast h3
    have hoffu' : u = 2 ∨ (97 ≤ u ∧ u % 96 = 1) := by
      by_cases h : offAtSpec u = true
      · unfold offAtSpec at h
        rw [decide_eq_true_eq] at h
        exact h
      · rw [slave_countOff u, if_neg h] at hoffu
        omega
    have ht93 : t % 96 = 93 := by
      rcases hemit with h1' | h93
      · omega
      · exact h93
    have htb : t = 96 * b - 3 := by omega
    rcases Nat.lt_or_ge b 2 with hb1 | hb2
    · constructor <;> omega
    · have hwoff : offAtSpec (96 * (b - 1) + 1) = true := by
        unfold offAtSpec
        rw [decide_eq_true_eq]
        right
        constructor
        · omega
        · omega
      have hwcnt : 1 ≤ countNoteOff (slaveEvents (96 * (b - 1) + 1)) := by
        rw [slave_countOff, if_pos hwoff]
      have hwlt : 96 * (b - 1) + 1 < t := by omega
      have hle := hmax (96 * (b - 1) + 1) hwlt hwcnt
      constructor <;> omega

/-- Witness for `noteOff_window_behavior`: boundary 2 is emitted at tick 189;
the immediately preceding note-off is at tick 97, inside `[96, 106)`. -/
theorem noteOff_window_behavior_witness :
    96 * (2 - 1) ≤ 97 ∧ 97 < 96 * (2 - 1) + 10 := by
  apply noteOff_window_behavior.2 2 189 97
  · norm_num
  · rw [slave_beatSent]
    exact ⟨by decide, by decide⟩
  · rw [slave_countOff, if_pos (by decide : offAtSpec 97 = true)]
  · norm_num
  · intro v hv hc
    by_cases h : offAtSpec v = true
    · unfold offAtSpec at h
      rw [decide_eq_true_eq] at h
      omega
    · rw [slave_countOff v, if_neg h] at hc
      omega

/-- Witness for `slave_run_note_counts` at N = 96: two note-ons (boundary 0
at tick 1, boundary 1 at tick 93) and two note-offs (tick 2, and the one the
Stop sends for the note still sounding at tick 96). -/
theorem slave_run_note_counts_witness :
    slaveTotalOns 96 = 2 ∧ slaveTotalOffs 96 = slaveTotalOns 96 := by
  have h := slave_run_note_counts 96
  refine ⟨?_, h.2⟩
  rw [h.1]
  norm_num
